import Mathlib

/-!
Verification of the catalog synchronizer script `update_agents_json.py`.

The script loads a JSON array of agent records, and for each record looks up a
companion markdown file named after the record identifier.  It extracts the
text after the second occurrence of the frontmatter delimiter "---", strips
surrounding whitespace, and, when the result is non-empty, stores it in the
record field "prompt".  Finally it rewrites the JSON catalog file.

The embedding below models records as ordered key-value lists (the shape of a
Python dict whose relevant values are strings), the file system as a map from
paths to file states, and the run as explicit state passing returning either
the updated catalog together with the printed diagnostics, or the first
uncaught error.
-/

set_option autoImplicit false

/-- Python str.split semantics: find the first occurrence of a non-empty
separator in a character list, returning the text before it and the text
after it, or none when the separator does not occur. -/
def splitFirst (sep : List Char) : List Char → Option (List Char × List Char)
  | [] => none
  | c :: rest =>
    if sep.isPrefixOf (c :: rest) then some ([], (c :: rest).drop sep.length)
    else
      match splitFirst sep rest with
      | none => none
      | some (a, b) => some (c :: a, b)

/-- Python `s.split(sep, maxsplit)` for a non-empty separator: perform at most
`maxsplit` splits at the leftmost occurrences of the separator. -/
def pySplitN (sep : List Char) : Nat → List Char → List (List Char)
  | 0, s => [s]
  | n + 1, s =>
    match splitFirst sep s with
    | none => [s]
    | some (a, b) => a :: pySplitN sep n b

/-- The frontmatter delimiter "---" used by the script. -/
def delim : List Char := ['-', '-', '-']

/-- The ASCII whitespace characters stripped by Python str.strip.
Python also strips some further Unicode whitespace; the catalogs and
companion files handled by the script are covered by the ASCII set. -/
def isPyWhitespace (c : Char) : Bool :=
  c == ' ' || c == '\t' || c == '\n' || c == '\r' ||
    c == Char.ofNat 11 || c == Char.ofNat 12

/-- Python str.strip on a character list: drop whitespace from both ends. -/
def pyStripL (s : List Char) : List Char :=
  ((s.dropWhile isPyWhitespace).reverse.dropWhile isPyWhitespace).reverse

/-- Python str.strip on strings. -/
def pyStrip (s : String) : String :=
  (pyStripL s.data).asString

/-- The script's `content.split('---', 2)` as a list of strings. -/
def pySplit2 (s : String) : List String :=
  (pySplitN delim 2 s.data).map List.asString

/-- `extract_prompt_from_markdown`, the pure part: split the file content on
the delimiter into at most three parts; when at least three parts result,
return the third part stripped, otherwise return the empty string. -/
def extract_prompt_from_markdown (content : String) : String :=
  let parts := pySplit2 content
  if parts.length ≥ 3 then pyStrip (parts.getD 2 "") else ""

/-- A record of the catalog: an ordered key-value map, the shape of a JSON
object whose relevant values (id, prompt) are strings. -/
abbrev Record := List (String × String)

/-- Python dict lookup `d[k]` as an option: the value of the first pair with
the given key. -/
def dictGet : Record → String → Option String
  | [], _ => none
  | p :: rest, k => if p.1 == k then some p.2 else dictGet rest k

/-- Python dict assignment `d[k] = v`: replace the value of the existing key
in place, keeping its position, or append a new pair at the end. -/
def dictSet : Record → String → String → Record
  | [], k, v => [(k, v)]
  | p :: rest, k, v => if p.1 == k then (k, v) :: rest else p :: dictSet rest k v

/-- The state of a path in the modelled file system: no file, a file that
exists but cannot be opened for reading, or a readable file with content. -/
inductive FileState
  | absent
  | unreadable
  | content (text : String)
deriving DecidableEq

/-- The errors that abort the run: a record without an id key (Python
KeyError), a companion file that exists but cannot be read (Python OSError),
a missing catalog file, and a catalog file that is not valid JSON. -/
inductive RunError
  | keyError (k : String)
  | readError (path : String)
  | catalogMissing
  | catalogInvalid
deriving DecidableEq

/-- The fixed directory holding the companion markdown files. -/
def agents_dir : String := "agent-gallery/agents"

/-- The fixed path of the JSON catalog file. -/
def agents_json_path : String := "agent-gallery/src/data/agents.json"

/-- The companion file path for an id: `os.path.join(agents_dir, id + ".md")`. -/
def mdPath (i : String) : String := agents_dir ++ "/" ++ i ++ ".md"

/-- The warning printed when the companion file is missing. -/
def warnMissing (i : String) : String :=
  "Warning: Markdown file not found for " ++ i

/-- The warning printed when extraction yields no content. -/
def warnNoContent (i : String) : String :=
  "Warning: No prompt content found for " ++ i

/-- The confirmation printed for an updated record. -/
def updatedMsg (i v : String) : String :=
  "Updated " ++ i ++ " - prompt length: " ++ toString v.length ++ " characters"

/-- One iteration of the main loop on one record: resolve the companion file
from the id, and either warn that it is missing, propagate a read failure,
assign the extracted prompt when non-empty, or warn that no content was
found.  Returns the updated record and the lines printed for it. -/
def processAgent (fs : String → FileState) (agent : Record) :
    Except RunError (Record × List String) :=
  match dictGet agent "id" with
  | none => Except.error (RunError.keyError "id")
  | some i =>
    match fs (mdPath i) with
    | FileState.absent => Except.ok (agent, [warnMissing i])
    | FileState.unreadable => Except.error (RunError.readError (mdPath i))
    | FileState.content text =>
        let full_prompt := extract_prompt_from_markdown text
        if full_prompt ≠ "" then
          Except.ok (dictSet agent "prompt" full_prompt, [updatedMsg i full_prompt])
        else
          Except.ok (agent, [warnNoContent i])

/-- The main loop over the catalog: process the records in order, collecting
the updated records and printed lines; the first uncaught error aborts. -/
def runAgents (fs : String → FileState) : List Record → Except RunError (List Record × List String)
  | [] => Except.ok ([], [])
  | a :: rest =>
    match processAgent fs a with
    | Except.error e => Except.error e
    | Except.ok (a', msgs) =>
      match runAgents fs rest with
      | Except.error e => Except.error e
      | Except.ok (as, ms) => Except.ok (a' :: as, msgs ++ ms)

/-- The outcome of `json.load` on the catalog file: the file may be missing,
hold invalid JSON, or parse to a list of records. -/
inductive LoadResult
  | missing
  | invalid
  | parsed (agents : List Record)

/-- The whole script: load the catalog (a missing or invalid catalog file
aborts), run the main loop, and on success append the final confirmation
line. -/
def runSync (load : LoadResult) (fs : String → FileState) :
    Except RunError (List Record × List String) :=
  match load with
  | LoadResult.missing => Except.error RunError.catalogMissing
  | LoadResult.invalid => Except.error RunError.catalogInvalid
  | LoadResult.parsed agents =>
    match runAgents fs agents with
    | Except.error e => Except.error e
    | Except.ok (as, ms) =>
        Except.ok (as, ms ++ ["\nSuccessfully updated " ++ agents_json_path])

/-- Whether the run aborted with a propagated top-level failure. -/
def isFatal {α : Type} : Except RunError α → Bool
  | Except.error _ => true
  | Except.ok _ => false

/-- The records serialized back to the catalog file by `json.dump`, or none
when the run aborted before the write. -/
def finalCatalogFile (load : LoadResult) (fs : String → FileState) :
    Option (List Record) :=
  match runSync load fs with
  | Except.ok (agents, _) => some agents
  | Except.error _ => none

/-- A record with the prompt field removed: the part of a record that the
script never modifies. -/
def erasePrompt (r : Record) : Record :=
  r.filter (fun p => !(p.1 == "prompt"))

/-! ### Helper lemmas about the dictionary operations -/

theorem dictGet_dictSet_self (d : Record) (k v : String) :
    dictGet (dictSet d k v) k = some v := by
  induction d with
  | nil => simp [dictGet, dictSet]
  | cons p rest ih =>
    by_cases h : p.1 = k
    · simp [dictGet, dictSet, h]
    · simp [dictGet, dictSet, h, ih]

theorem dictGet_dictSet_ne (d : Record) (k v k' : String) (h : k' ≠ k) :
    dictGet (dictSet d k v) k' = dictGet d k' := by
  have h' : ¬ (k = k') := fun hh => h hh.symm
  induction d with
  | nil => simp [dictGet, dictSet, h']
  | cons p rest ih =>
    by_cases hp : p.1 = k
    · have hp' : ¬ (p.1 = k') := by rw [hp]; exact h'
      simp [dictGet, dictSet, hp, hp', h']
    · simp [dictGet, dictSet, hp, ih]

theorem dictSet_dictSet (d : Record) (k v : String) :
    dictSet (dictSet d k v) k v = dictSet d k v := by
  induction d with
  | nil => simp [dictSet]
  | cons p rest ih =>
    by_cases h : p.1 = k
    · simp [dictSet, h]
    · simp [dictSet, h, ih]

theorem erasePrompt_dictSet (d : Record) (v : String) :
    erasePrompt (dictSet d "prompt" v) = erasePrompt d := by
  induction d with
  | nil => simp [dictSet, erasePrompt, List.filter_cons]
  | cons p rest ih =>
    by_cases h : p.1 = "prompt"
    · simp [dictSet, erasePrompt, List.filter_cons, h]
    · simp only [erasePrompt] at ih
      simp [dictSet, erasePrompt, List.filter_cons, h, ih]

/-! ### Helper lemmas about stripping and splitting -/

theorem pyStripL_eq_rdropWhile (s : List Char) :
    pyStripL s = List.rdropWhile isPyWhitespace (s.dropWhile isPyWhitespace) := rfl

theorem pyStripL_idem (s : List Char) : pyStripL (pyStripL s) = pyStripL s := by
  classical
  set p := isPyWhitespace with hp
  have hu : (s.dropWhile p).dropWhile p = s.dropWhile p :=
    List.dropWhile_idempotent p s
  set u := s.dropWhile p with hudef
  set r := List.rdropWhile p u with hrdef
  have hdrop : r.dropWhile p = r := by
    rw [List.dropWhile_eq_self_iff]
    intro hl
    have hpre : r <+: u := List.rdropWhile_prefix p u
    have hlen : 0 < u.length := lt_of_lt_of_le hl hpre.length_le
    have hget : r.get ⟨0, hl⟩ = u.get ⟨0, hlen⟩ := hpre.get_eq hl
    have := (List.dropWhile_eq_self_iff).mp hu hlen
    rw [hget]
    exact this
  calc pyStripL r = List.rdropWhile p (r.dropWhile p) := rfl
    _ = List.rdropWhile p r := by rw [hdrop]
    _ = List.rdropWhile p (List.rdropWhile p u) := by rw [hrdef]
    _ = List.rdropWhile p u := List.rdropWhile_idempotent p u
    _ = r := by rw [hrdef]

theorem data_asString (l : List Char) : (List.asString l).data = l := rfl

theorem pyStrip_idem (s : String) : pyStrip (pyStrip s) = pyStrip s := by
  unfold pyStrip
  rw [data_asString, pyStripL_idem]

theorem data_append (s t : String) : (s ++ t).data = s.data ++ t.data := rfl

theorem splitFirst_eq (sep : List Char) :
    ∀ s a b : List Char, splitFirst sep s = some (a, b) → s = a ++ sep ++ b := by
  intro s
  induction s with
  | nil => intro a b h; simp [splitFirst] at h
  | cons c rest ih =>
    intro a b h
    unfold splitFirst at h
    by_cases hp : sep.isPrefixOf (c :: rest)
    · rw [if_pos hp] at h
      have hinj := Option.some.inj h
      have ha : a = [] := (congrArg Prod.fst hinj).symm
      have hb : b = (c :: rest).drop sep.length := (congrArg Prod.snd hinj).symm
      have hpre : sep <+: (c :: rest) := by simpa using hp
      obtain ⟨t, ht⟩ := hpre
      have hdrop : (c :: rest).drop sep.length = t := by
        rw [← ht, List.drop_left]
      rw [ha, hb, hdrop]
      simpa using ht.symm
    · rw [if_neg hp] at h
      cases hfs : splitFirst sep rest with
      | none => rw [hfs] at h; simp at h
      | some ab =>
        obtain ⟨a', b'⟩ := ab
        rw [hfs] at h
        have hinj := Option.some.inj h
        have ha : a = c :: a' := (congrArg Prod.fst hinj).symm
        have hb2 : b = b' := (congrArg Prod.snd hinj).symm
        have hrest := ih a' b' hfs
        rw [ha, hb2, hrest]
        simp

theorem string_eq_of_data (s t : String) (h : s.data = t.data) : s = t := by
  cases s; cases t; exact congrArg String.mk h

theorem pySplitN2_eq (sep s x y z : List Char)
    (h : pySplitN sep 2 s = [x, y, z]) : s = x ++ sep ++ y ++ sep ++ z := by
  unfold pySplitN at h
  cases h1 : splitFirst sep s with
  | none => rw [h1] at h; simp at h
  | some ab =>
    obtain ⟨a, b⟩ := ab
    rw [h1] at h
    have hx : a = x := (List.cons.inj h).1
    have h2' : pySplitN sep 1 b = [y, z] := by
      have := (List.cons.inj h).2
      simpa [pySplitN] using this
    unfold pySplitN at h2'
    cases h2 : splitFirst sep b with
    | none => rw [h2] at h2'; simp at h2'
    | some ab2 =>
      obtain ⟨a2, b2⟩ := ab2
      rw [h2] at h2'
      have hy : a2 = y := (List.cons.inj h2').1
      have hz : b2 = z := by
        have := (List.cons.inj h2').2
        simpa [pySplitN] using this
      have e1 := splitFirst_eq sep s a b h1
      have e2 := splitFirst_eq sep b a2 b2 h2
      rw [e1, e2, hx, hy, hz]
      simp

theorem pySplit2_eq (content x y z : String)
    (h : pySplit2 content = [x, y, z]) :
    content = x ++ "---" ++ y ++ "---" ++ z := by
  unfold pySplit2 at h
  cases hL : pySplitN delim 2 content.data with
  | nil => rw [hL] at h; simp at h
  | cons l0 L0 =>
    cases L0 with
    | nil => rw [hL] at h; simp at h
    | cons l1 L1 =>
      cases L1 with
      | nil => rw [hL] at h; simp at h
      | cons l2 L2 =>
        cases L2 with
        | cons l3 L3 => rw [hL] at h; simp at h
        | nil =>
          rw [hL] at h
          simp only [List.map_cons, List.map_nil] at h
          have hx : l0.asString = x := (List.cons.inj h).1
          have hy : l1.asString = y := (List.cons.inj (List.cons.inj h).2).1
          have hz : l2.asString = z :=
            (List.cons.inj (List.cons.inj (List.cons.inj h).2).2).1
          have hx' : l0 = x.data := by rw [← hx]; exact (data_asString l0).symm
          have hy' : l1 = y.data := by rw [← hy]; exact (data_asString l1).symm
          have hz' : l2 = z.data := by rw [← hz]; exact (data_asString l2).symm
          rw [hx', hy', hz'] at hL
          have hd := pySplitN2_eq delim content.data x.data y.data z.data hL
          apply string_eq_of_data
          rw [hd]
          simp [data_append]
          rfl

theorem extract_of_split3 (content x y z : String)
    (h : pySplit2 content = [x, y, z]) :
    extract_prompt_from_markdown content = pyStrip z := by
  unfold extract_prompt_from_markdown
  rw [h]
  rfl

theorem extract_eq_strip_or_empty (c : String) :
    extract_prompt_from_markdown c = "" ∨
    extract_prompt_from_markdown c = pyStrip ((pySplit2 c).getD 2 "") := by
  unfold extract_prompt_from_markdown
  by_cases h3 : (pySplit2 c).length ≥ 3
  · rw [if_pos h3]; exact Or.inr rfl
  · rw [if_neg h3]; exact Or.inl rfl

/-! ### Helper lemmas about one loop iteration -/

theorem processAgent_inv (fs : String → FileState) (a a' : Record) (m : List String)
    (h : processAgent fs a = Except.ok (a', m)) :
    ∃ i, dictGet a "id" = some i ∧
      ((fs (mdPath i) = FileState.absent ∧ a' = a ∧ m = [warnMissing i]) ∨
       (∃ text, fs (mdPath i) = FileState.content text ∧
         extract_prompt_from_markdown text ≠ "" ∧
         a' = dictSet a "prompt" (extract_prompt_from_markdown text) ∧
         m = [updatedMsg i (extract_prompt_from_markdown text)]) ∨
       (∃ text, fs (mdPath i) = FileState.content text ∧
         extract_prompt_from_markdown text = "" ∧ a' = a ∧
         m = [warnNoContent i])) := by
  cases hid : dictGet a "id" with
  | none => simp [processAgent, hid] at h
  | some i =>
    refine ⟨i, rfl, ?_⟩
    cases hfs : fs (mdPath i) with
    | absent =>
      simp [processAgent, hid, hfs] at h
      exact Or.inl ⟨rfl, h.1.symm, by simp [warnMissing, ← h.2]⟩
    | unreadable => simp [processAgent, hid, hfs] at h
    | content text =>
      by_cases hne : extract_prompt_from_markdown text = ""
      · simp [processAgent, hid, hfs, hne] at h
        exact Or.inr (Or.inr ⟨text, rfl, hne, h.1.symm, by simp [warnNoContent, ← h.2]⟩)
      · simp [processAgent, hid, hfs, hne] at h
        exact Or.inr (Or.inl ⟨text, rfl, hne, h.1.symm, by simp [updatedMsg, ← h.2]⟩)

theorem processAgent_erasePrompt (fs : String → FileState) (a a' : Record) (m : List String)
    (h : processAgent fs a = Except.ok (a', m)) : erasePrompt a' = erasePrompt a := by
  obtain ⟨i, hid, hcase⟩ := processAgent_inv fs a a' m h
  rcases hcase with ⟨_, ha, _⟩ | ⟨text, _, _, ha, _⟩ | ⟨text, _, _, ha, _⟩
  · rw [ha]
  · rw [ha]; exact erasePrompt_dictSet a _
  · rw [ha]

theorem processAgent_idem (fs : String → FileState) (a a' : Record) (m : List String)
    (h : processAgent fs a = Except.ok (a', m)) :
    processAgent fs a' = Except.ok (a', m) := by
  obtain ⟨i, hid, hcase⟩ := processAgent_inv fs a a' m h
  rcases hcase with ⟨hfs, ha, hm⟩ | ⟨text, hfs, hne, ha, hm⟩ | ⟨text, hfs, _, ha, hm⟩
  · rw [ha] at h ⊢; exact h
  · have hid2 : dictGet (dictSet a "prompt" (extract_prompt_from_markdown text)) "id"
        = some i := by
      rw [dictGet_dictSet_ne a "prompt" _ "id" (by decide)]; exact hid
    rw [hm, ha]
    simp [processAgent, hid2, hfs, hne, updatedMsg, dictSet_dictSet]
  · rw [ha] at h ⊢; exact h

/-! ### Helper lemmas about the main loop -/

theorem runAgents_pointwise (fs : String → FileState) :
    ∀ (l l' : List Record) (ms : List String) (k : Nat) (a : Record),
      runAgents fs l = Except.ok (l', ms) → l.get? k = some a →
      ∃ a' m, l'.get? k = some a' ∧ processAgent fs a = Except.ok (a', m) := by
  intro l
  induction l with
  | nil => intro l' ms k a h hk; simp at hk
  | cons a0 rest ih =>
    intro l' ms k a h hk
    unfold runAgents at h
    cases hp : processAgent fs a0 with
    | error e => rw [hp] at h; simp at h
    | ok pm =>
      obtain ⟨a0', m0⟩ := pm
      rw [hp] at h
      cases hr : runAgents fs rest with
      | error e => rw [hr] at h; simp at h
      | ok asms =>
        obtain ⟨as, ms0⟩ := asms
        rw [hr] at h
        have hinj := Except.ok.inj h
        have hl' : l' = a0' :: as := (congrArg Prod.fst hinj).symm
        cases k with
        | zero =>
          have ha : a = a0 := (Option.some.inj hk).symm
          exact ⟨a0', m0, by simp [hl'], by rw [ha]; exact hp⟩
        | succ k =>
          have hk' : rest.get? k = some a := by simpa using hk
          obtain ⟨a', m, h1, h2⟩ := ih as ms0 k a hr hk'
          refine ⟨a', m, ?_, h2⟩
          rw [hl']
          simpa using h1

theorem runAgents_erasePrompt (fs : String → FileState) :
    ∀ (l l' : List Record) (ms : List String),
      runAgents fs l = Except.ok (l', ms) →
      l'.map erasePrompt = l.map erasePrompt := by
  intro l
  induction l with
  | nil =>
    intro l' ms h
    have hinj := Except.ok.inj h
    have hl' : l' = [] := (congrArg Prod.fst hinj).symm
    simp [hl']
  | cons a0 rest ih =>
    intro l' ms h
    unfold runAgents at h
    cases hp : processAgent fs a0 with
    | error e => rw [hp] at h; simp at h
    | ok pm =>
      obtain ⟨a0', m0⟩ := pm
      rw [hp] at h
      cases hr : runAgents fs rest with
      | error e => rw [hr] at h; simp at h
      | ok asms =>
        obtain ⟨as, ms0⟩ := asms
        rw [hr] at h
        have hinj := Except.ok.inj h
        have hl' : l' = a0' :: as := (congrArg Prod.fst hinj).symm
        rw [hl']
        simp only [List.map_cons]
        rw [processAgent_erasePrompt fs a0 a0' m0 hp, ih as ms0 hr]

theorem runAgents_idem (fs : String → FileState) :
    ∀ (l l' : List Record) (ms : List String),
      runAgents fs l = Except.ok (l', ms) →
      runAgents fs l' = Except.ok (l', ms) := by
  intro l
  induction l with
  | nil =>
    intro l' ms h
    have hinj := Except.ok.inj h
    have hl' : l' = [] := (congrArg Prod.fst hinj).symm
    have hms : ms = [] := (congrArg Prod.snd hinj).symm
    rw [hl', hms]; rfl
  | cons a0 rest ih =>
    intro l' ms h
    unfold runAgents at h
    cases hp : processAgent fs a0 with
    | error e => rw [hp] at h; simp at h
    | ok pm =>
      obtain ⟨a0', m0⟩ := pm
      rw [hp] at h
      cases hr : runAgents fs rest with
      | error e => rw [hr] at h; simp at h
      | ok asms =>
        obtain ⟨as, ms0⟩ := asms
        rw [hr] at h
        have hinj := Except.ok.inj h
        have hl' : l' = a0' :: as := (congrArg Prod.fst hinj).symm
        have hms : ms = m0 ++ ms0 := (congrArg Prod.snd hinj).symm
        rw [hl', hms]
        unfold runAgents
        rw [processAgent_idem fs a0 a0' m0 hp, ih as ms0 hr]

theorem runAgents_fatal_of_mem (fs : String → FileState) :
    ∀ (l : List Record) (a : Record) (e : RunError),
      a ∈ l → processAgent fs a = Except.error e →
      isFatal (runAgents fs l) = true := by
  intro l
  induction l with
  | nil => intro a e ha _; simp at ha
  | cons a0 rest ih =>
    intro a e ha hp
    rcases List.mem_cons.mp ha with h0 | hrest
    · unfold runAgents
      rw [← h0, hp]
      rfl
    · unfold runAgents
      cases hp0 : processAgent fs a0 with
      | error e0 => rfl
      | ok pm =>
        obtain ⟨a0', m0⟩ := pm
        have := ih a e hrest hp
        cases hr : runAgents fs rest with
        | error e1 => rfl
        | ok asms => rw [hr] at this; simp [isFatal] at this

/-! ### The claims -/

/-- C1 counterexample: the companion file "------ " contains the delimiter
twice and has the non-empty content " " after the second occurrence, yet the
run leaves the prompt at its old value "old" instead of assigning the
stripped text (which is empty), so the claim as stated fails. -/
theorem C1_counterexample :
    pySplit2 "------ " = ["", "", " "] ∧
    (" " : String) ≠ "" ∧
    runAgents
      (fun p => if p = "agent-gallery/agents/alpha.md"
        then FileState.content "------ " else FileState.absent)
      [[("id", "alpha"), ("prompt", "old")]] =
      Except.ok ([[("id", "alpha"), ("prompt", "old")]],
        [warnNoContent "alpha"]) ∧
    dictGet [("id", "alpha"), ("prompt", "old")] "prompt" ≠ some (pyStrip " ") := by
  refine ⟨by decide, by decide, rfl, by decide⟩

/-- C1 (amended): for every record whose companion file exists and contains
the delimiter "---" at least twice with content after the second occurrence
that is non-empty once leading and trailing whitespace is stripped, after the
synchronizer runs the record prompt equals that stripped text. -/
theorem C1_prompt_updated (fs : String → FileState)
    (catalog catalog' : List Record) (ms : List String) (k : Nat) (a : Record)
    (i c x y z : String)
    (hrun : runAgents fs catalog = Except.ok (catalog', ms))
    (hk : catalog.get? k = some a)
    (hid : dictGet a "id" = some i)
    (hfile : fs (mdPath i) = FileState.content c)
    (hsplit : pySplit2 c = [x, y, z])
    (hne : pyStrip z ≠ "") :
    ∃ a', catalog'.get? k = some a' ∧ dictGet a' "prompt" = some (pyStrip z) := by
  obtain ⟨a', m, h1, h2⟩ := runAgents_pointwise fs catalog catalog' ms k a hrun hk
  refine ⟨a', h1, ?_⟩
  have hex : extract_prompt_from_markdown c = pyStrip z :=
    extract_of_split3 c x y z hsplit
  obtain ⟨i0, hid0, hcase⟩ := processAgent_inv fs a a' m h2
  have hi : i0 = i := Option.some.inj (hid0.symm.trans hid)
  rw [hi] at hcase
  rcases hcase with ⟨habs, _, _⟩ | ⟨text, hct, hne2, ha, _⟩ | ⟨text, hct, hz, _, _⟩
  · rw [hfile] at habs; cases habs
  · have htext : text = c := FileState.content.inj (hct.symm.trans hfile)
    rw [htext, hex] at ha
    rw [ha]
    exact dictGet_dictSet_self a "prompt" (pyStrip z)
  · have htext : text = c := FileState.content.inj (hct.symm.trans hfile)
    rw [htext, hex] at hz
    exact absurd hz hne

/-- C1 witness: on the worked example of the specification the amended claim
applies and yields the stripped body. -/
theorem C1_witness :
    ∃ a', ([[("id", "alpha"), ("prompt", "Hello world.")]] : List Record).get? 0
        = some a' ∧
      dictGet a' "prompt" = some (pyStrip "\nHello world.\n") :=
  C1_prompt_updated
    (fun p => if p = "agent-gallery/agents/alpha.md"
      then FileState.content "---\ntitle: x\n---\nHello world.\n"
      else FileState.absent)
    [[("id", "alpha"), ("prompt", "old")]]
    [[("id", "alpha"), ("prompt", "Hello world.")]]
    [updatedMsg "alpha" "Hello world."] 0
    [("id", "alpha"), ("prompt", "old")] "alpha"
    "---\ntitle: x\n---\nHello world.\n" "" "\ntitle: x\n" "\nHello world.\n"
    rfl (by decide) (by decide) rfl (by decide) (by decide)

/-- C2: for a record whose companion file does not exist, the loop iteration
returns the record unchanged together with a warning naming it, and the run
continues with the remaining records. -/
theorem C2_missing_file (fs : String → FileState) (a : Record)
    (rest : List Record) (i : String)
    (hid : dictGet a "id" = some i)
    (habs : fs (mdPath i) = FileState.absent) :
    processAgent fs a = Except.ok (a, [warnMissing i]) ∧
    runAgents fs (a :: rest) =
      (match runAgents fs rest with
       | Except.error e => Except.error e
       | Except.ok (as, ms) => Except.ok (a :: as, warnMissing i :: ms)) := by
  have h1 : processAgent fs a = Except.ok (a, [warnMissing i]) := by
    simp [processAgent, hid, habs]
  refine ⟨h1, ?_⟩
  have hstep : runAgents fs (a :: rest) =
      match processAgent fs a with
      | Except.error e => Except.error e
      | Except.ok (a', msgs) =>
        match runAgents fs rest with
        | Except.error e => Except.error e
        | Except.ok (as, ms) => Except.ok (a' :: as, msgs ++ ms) := rfl
  rw [hstep, h1]
  cases hres : runAgents fs rest with
  | error e => rfl
  | ok asms => obtain ⟨as, ms⟩ := asms; rfl

/-- C2 witness: a record with a missing companion file passes through
unchanged, with its warning in front of the output of the rest of the run. -/
theorem C2_witness :
    processAgent (fun _ => FileState.absent) [("id", "beta"), ("prompt", "keep-me")]
      = Except.ok ([("id", "beta"), ("prompt", "keep-me")], [warnMissing "beta"]) ∧
    runAgents (fun _ => FileState.absent)
        ([("id", "beta"), ("prompt", "keep-me")] :: [[("id", "gamma")]]) =
      (match runAgents (fun _ => FileState.absent) [[("id", "gamma")]] with
       | Except.error e => Except.error e
       | Except.ok (as, ms) =>
           Except.ok ([("id", "beta"), ("prompt", "keep-me")] :: as,
             warnMissing "beta" :: ms)) :=
  C2_missing_file (fun _ => FileState.absent)
    [("id", "beta"), ("prompt", "keep-me")] [[("id", "gamma")]] "beta"
    (by decide) (by decide)

/-- C3: whenever the run writes a catalog, the written records agree with the
input records after erasing the prompt field of each: the record order and
every field other than prompt are unchanged. -/
theorem C3_frame (agents : List Record) (fs : String → FileState)
    (catalog' : List Record)
    (h : finalCatalogFile (LoadResult.parsed agents) fs = some catalog') :
    catalog'.map erasePrompt = agents.map erasePrompt := by
  simp only [finalCatalogFile, runSync] at h
  cases hr : runAgents fs agents with
  | error e => rw [hr] at h; simp at h
  | ok asms =>
    obtain ⟨as, ms⟩ := asms
    rw [hr] at h
    simp at h
    rw [← h]
    exact runAgents_erasePrompt fs agents as ms hr

/-- C3 witness: a concrete run that updates one prompt, keeps a second record
untouched, and preserves all other fields and the record order. -/
theorem C3_witness :
    ([[("name", "First"), ("id", "a"), ("prompt", "body")],
      [("id", "b"), ("prompt", "keep"), ("extra", "42")]] : List Record).map
        erasePrompt =
      ([[("name", "First"), ("id", "a"), ("prompt", "old")],
        [("id", "b"), ("prompt", "keep"), ("extra", "42")]] : List Record).map
        erasePrompt :=
  C3_frame
    [[("name", "First"), ("id", "a"), ("prompt", "old")],
     [("id", "b"), ("prompt", "keep"), ("extra", "42")]]
    (fun p => if p = "agent-gallery/agents/a.md"
      then FileState.content "---\n---\nbody" else FileState.absent)
    [[("name", "First"), ("id", "a"), ("prompt", "body")],
     [("id", "b"), ("prompt", "keep"), ("extra", "42")]]
    (by decide)

/-- C4: the synchronizer is idempotent: when a first run writes a catalog,
a second run over that written catalog with the same companion files writes
the same catalog again. -/
theorem C4_idempotent (c c1 : List Record) (fs : String → FileState)
    (h : finalCatalogFile (LoadResult.parsed c) fs = some c1) :
    finalCatalogFile (LoadResult.parsed c1) fs = some c1 := by
  simp only [finalCatalogFile, runSync] at h ⊢
  cases hr : runAgents fs c with
  | error e => rw [hr] at h; simp at h
  | ok asms =>
    obtain ⟨as, ms⟩ := asms
    rw [hr] at h
    simp at h
    rw [← h]
    rw [runAgents_idem fs c as ms hr]

/-- C4 witness: a second run over the catalog written by a concrete first run
reproduces it exactly. -/
theorem C4_witness :
    finalCatalogFile
      (LoadResult.parsed [[("id", "a"), ("prompt", "body")], [("id", "b")]])
      (fun p => if p = "agent-gallery/agents/a.md"
        then FileState.content "---\n---\nbody" else FileState.absent) =
      some [[("id", "a"), ("prompt", "body")], [("id", "b")]] :=
  C4_idempotent [[("id", "a"), ("prompt", "old")], [("id", "b")]]
    [[("id", "a"), ("prompt", "body")], [("id", "b")]]
    (fun p => if p = "agent-gallery/agents/a.md"
      then FileState.content "---\n---\nbody" else FileState.absent)
    (by decide)

/-- C5: for a record whose companion file exists but contains the delimiter
fewer than two times, or whose extracted body strips to the empty string, the
loop iteration leaves the record unchanged and emits the diagnostic warning. -/
theorem C5_no_extract (fs : String → FileState) (a : Record) (i c : String)
    (hid : dictGet a "id" = some i)
    (hfile : fs (mdPath i) = FileState.content c)
    (hbad : (pySplit2 c).length < 3 ∨ pyStrip ((pySplit2 c).getD 2 "") = "") :
    processAgent fs a = Except.ok (a, [warnNoContent i]) := by
  have hex : extract_prompt_from_markdown c = "" := by
    unfold extract_prompt_from_markdown
    rcases hbad with hlt | hz
    · rw [if_neg (by omega)]
    · by_cases h3 : (pySplit2 c).length ≥ 3
      · rw [if_pos h3]; exact hz
      · rw [if_neg h3]
  simp [processAgent, hid, hfile, hex]

/-- C5 witness: the specification example of a companion file with no
delimiter at all leaves the record untouched and warns. -/
theorem C5_witness :
    processAgent
      (fun p => if p = "agent-gallery/agents/gamma.md"
        then FileState.content "no frontmatter here" else FileState.absent)
      [("id", "gamma"), ("prompt", "old")] =
      Except.ok ([("id", "gamma"), ("prompt", "old")], [warnNoContent "gamma"]) :=
  C5_no_extract
    (fun p => if p = "agent-gallery/agents/gamma.md"
      then FileState.content "no frontmatter here" else FileState.absent)
    [("id", "gamma"), ("prompt", "old")] "gamma" "no frontmatter here"
    (by decide) (by decide) (Or.inl (by decide))

/-- C6: a missing catalog file, an invalid catalog file, or a companion file
that exists but cannot be read aborts the run with a propagated top-level
failure, and the catalog file is not written. -/
theorem C6_fatal (load : LoadResult) (fs : String → FileState)
    (h : load = LoadResult.missing ∨ load = LoadResult.invalid ∨
      ∃ agents a i, load = LoadResult.parsed agents ∧ a ∈ agents ∧
        dictGet a "id" = some i ∧ fs (mdPath i) = FileState.unreadable) :
    isFatal (runSync load fs) = true ∧ finalCatalogFile load fs = none := by
  have hf : isFatal (runSync load fs) = true := by
    rcases h with h | h | ⟨agents, a, i, hl, hmem, hid, hun⟩
    · rw [h]; rfl
    · rw [h]; rfl
    · rw [hl]
      have hperr : processAgent fs a = Except.error (RunError.readError (mdPath i)) := by
        simp [processAgent, hid, hun]
      have hfagents := runAgents_fatal_of_mem fs agents a _ hmem hperr
      simp only [runSync]
      cases hr : runAgents fs agents with
      | error e => rfl
      | ok asms => rw [hr] at hfagents; simp [isFatal] at hfagents
  refine ⟨hf, ?_⟩
  unfold finalCatalogFile
  cases hs : runSync load fs with
  | error e => rfl
  | ok x => rw [hs] at hf; simp [isFatal] at hf

/-- C6 witness: a catalog whose only companion file exists but is unreadable
aborts the run and writes nothing. -/
theorem C6_witness :
    isFatal (runSync (LoadResult.parsed [[("id", "delta"), ("prompt", "p")]])
      (fun _ => FileState.unreadable)) = true ∧
    finalCatalogFile (LoadResult.parsed [[("id", "delta"), ("prompt", "p")]])
      (fun _ => FileState.unreadable) = none :=
  C6_fatal (LoadResult.parsed [[("id", "delta"), ("prompt", "p")]])
    (fun _ => FileState.unreadable)
    (Or.inr (Or.inr ⟨[[("id", "delta"), ("prompt", "p")]],
      [("id", "delta"), ("prompt", "p")], "delta", rfl, by simp, by decide, rfl⟩))

/-- C7: when the split of the file content on the delimiter yields three
parts, the content is exactly the first part, the delimiter, the second part,
the delimiter, and the remainder, and extraction returns that stripped
remainder: the cut is at the second delimiter occurrence, and any later
occurrence is part of the body. -/
theorem C7_cut_at_second (content x y z : String)
    (h : pySplit2 content = [x, y, z]) :
    content = x ++ "---" ++ y ++ "---" ++ z ∧
    extract_prompt_from_markdown content = pyStrip z :=
  ⟨pySplit2_eq content x y z h, extract_of_split3 content x y z h⟩

/-- C7 witness: a file in which the delimiter occurs four times is cut at the
second occurrence and the two later occurrences stay inside the body. -/
theorem C7_witness :
    ("---h---x---y---" : String) = "" ++ "---" ++ "h" ++ "---" ++ "x---y---" ∧
    extract_prompt_from_markdown "---h---x---y---" = pyStrip "x---y---" :=
  C7_cut_at_second "---h---x---y---" "" "h" "x---y---" (by decide)

/-- C8: a loop iteration either leaves the prompt field of the record exactly
as it was, or assigns it a non-empty string equal to its own stripped form,
so no empty and no unstripped prompt is ever written. -/
theorem C8_prompt_invariant (fs : String → FileState) (a a' : Record)
    (m : List String)
    (h : processAgent fs a = Except.ok (a', m)) :
    dictGet a' "prompt" = dictGet a "prompt" ∨
    ∃ v, dictGet a' "prompt" = some v ∧ v ≠ "" ∧ pyStrip v = v := by
  obtain ⟨i, hid, hcase⟩ := processAgent_inv fs a a' m h
  rcases hcase with ⟨_, ha, _⟩ | ⟨text, _, hne, ha, _⟩ | ⟨text, _, _, ha, _⟩
  · rw [ha]; exact Or.inl rfl
  · refine Or.inr ⟨extract_prompt_from_markdown text, ?_, hne, ?_⟩
    · rw [ha]; exact dictGet_dictSet_self a "prompt" _
    · rcases extract_eq_strip_or_empty text with hz | hs
      · exact absurd hz hne
      · rw [hs]; exact pyStrip_idem _
  · rw [ha]; exact Or.inl rfl

/-- C8 witness: on a concrete update the assigned prompt is non-empty and
already stripped. -/
theorem C8_witness :
    dictGet [("id", "a"), ("prompt", "body")] "prompt"
        = dictGet [("id", "a"), ("prompt", "  old  ")] "prompt" ∨
    ∃ v, dictGet [("id", "a"), ("prompt", "body")] "prompt" = some v ∧
      v ≠ "" ∧ pyStrip v = v :=
  C8_prompt_invariant
    (fun p => if p = "agent-gallery/agents/a.md"
      then FileState.content "---\n---\n  body  " else FileState.absent)
    [("id", "a"), ("prompt", "  old  ")] [("id", "a"), ("prompt", "body")]
    [updatedMsg "a" "body"] rfl

/-- C9: when some element of the catalog has no id key, the run aborts with
an uncaught error and the catalog file is left unwritten. -/
theorem C9_missing_id (agents : List Record) (fs : String → FileState)
    (a : Record) (hmem : a ∈ agents) (hid : dictGet a "id" = none) :
    isFatal (runAgents fs agents) = true ∧
    finalCatalogFile (LoadResult.parsed agents) fs = none := by
  have hperr : processAgent fs a = Except.error (RunError.keyError "id") := by
    simp [processAgent, hid]
  have hf := runAgents_fatal_of_mem fs agents a _ hmem hperr
  refine ⟨hf, ?_⟩
  simp only [finalCatalogFile, runSync]
  cases hr : runAgents fs agents with
  | error e => rfl
  | ok x => rw [hr] at hf; simp [isFatal] at hf

/-- C9 witness: a catalog whose record lacks the id key aborts the run before
any write. -/
theorem C9_witness :
    isFatal (runAgents (fun _ => FileState.absent) [[("prompt", "p")]]) = true ∧
    finalCatalogFile (LoadResult.parsed [[("prompt", "p")]])
      (fun _ => FileState.absent) = none :=
  C9_missing_id [[("prompt", "p")]] (fun _ => FileState.absent)
    [("prompt", "p")] (by simp) (by decide)

/-- C10: extraction does not require the first delimiter occurrence to be at
the start of the file: even with non-empty text before the first occurrence,
that text and the header are discarded and the stripped remainder after the
second occurrence is the body. -/
theorem C10_leading_text (content x y z : String)
    (h : pySplit2 content = [x, y, z]) (hx : x ≠ "") :
    content = x ++ "---" ++ y ++ "---" ++ z ∧
    extract_prompt_from_markdown content = pyStrip z :=
  ⟨pySplit2_eq content x y z h, extract_of_split3 content x y z h⟩

/-- C10 witness: a file with text before the first delimiter still yields the
stripped body after the second delimiter. -/
theorem C10_witness :
    ("junk---h--- body " : String) = "junk" ++ "---" ++ "h" ++ "---" ++ " body " ∧
    extract_prompt_from_markdown "junk---h--- body " = pyStrip " body " :=
  C10_leading_text "junk---h--- body " "junk" "h" " body " (by decide) (by decide)
